import Mathlib

/-!
Shallow embedding of `dlp/snippets/Inspect/inspect_image_listed_infotypes.py`.

The program builds a DLP `InspectContentRequest` from a project id, an image
file and a list of infoType labels, sends it through a client, and prints the
findings of the response.  We embed:

* the request/response data model as Lean structures mirroring the proto
  message fields the program touches (`parent`, `inspect_config.info_types`,
  `inspect_config.include_quote`, `item.byte_item.type_/data`,
  `response.result.findings`, `finding.info_type.name`, `finding.quote`,
  `finding.likelihood`);
* the file system as a partial map from filenames to byte lists (`none`
  models an `open` that raises);
* the remote client as a function from requests to `Except` (an `error`
  models an RPC exception being raised);
* standard output as the string of all characters written, where Python's
  `print(s)` writes `s` followed by one newline;
* the `__main__` block's `argparse` configuration, where the only declared
  argument that `argparse` itself enforces is the required positional
  `filename` (`--project` and `--info_types` are optional and default to
  `None`; `--include_quote` defaults to Python `True`, and a value given on
  the command line arrives as a string whose truthiness the program uses).
-/

/-- One entry of `inspect_config.info_types`, i.e. the dict
`{"name": info_type}` built by the comprehension at line 49. -/
structure InfoTypeEntry where
  name : String
  deriving DecidableEq, Repr

/-- The `inspect_config` dict of lines 52-55. -/
structure InspectConfig where
  info_types : List InfoTypeEntry
  include_quote : Bool
  deriving DecidableEq, Repr

/-- The `byte_item` dict of line 59: `{"type_": "IMAGE", "data": f.read()}`.
Bytes are modelled as naturals. -/
structure ByteItem where
  type_ : String
  data : List Nat
  deriving DecidableEq, Repr

/-- The `item` field of the request, `{"byte_item": byte_item}`. -/
structure ContentItem where
  byte_item : ByteItem
  deriving DecidableEq, Repr

/-- The request dict passed to `dlp.inspect_content` at lines 65-71. -/
structure InspectRequest where
  parent : String
  inspect_config : InspectConfig
  item : ContentItem
  deriving DecidableEq, Repr

/-- One finding of the response.  The program reads `finding.info_type.name`,
`finding.quote` and `finding.likelihood`; `quote` is the empty string when the
service attached no snippet, and `likelihood` is modelled as the textual label
the formatted output shows for it. -/
structure Finding where
  info_type : InfoTypeEntry
  quote : String
  likelihood : String
  deriving DecidableEq, Repr

/-- `response.result`: the ordered sequence of findings. -/
structure InspectResult where
  findings : List Finding
  deriving DecidableEq, Repr

/-- The response returned by `dlp.inspect_content`. -/
structure InspectResponse where
  result : InspectResult
  deriving DecidableEq, Repr

/-- An exception raised by the remote call (authentication failure, quota,
transport failure, ...). -/
inductive RemoteError where
  | authFailure
  | other (msg : String)
  deriving DecidableEq, Repr

/-- The Python exceptions the program can die with:
`SystemExit` from `argparse` on a usage error, `TypeError` from iterating
`None`, `OSError` from `open`, and a re-raised client exception. -/
inductive PyError where
  | usageError
  | typeError
  | fileReadError
  | remoteError (e : RemoteError)
  deriving DecidableEq, Repr

deriving instance DecidableEq for Except

/-- Observable outcome of one run: the requests handed to
`dlp.inspect_content` in order, the text written to stdout, and normal
termination or the exception that escaped. -/
structure Trace where
  sent : List InspectRequest
  stdout : String
  result : Except PyError Unit
  deriving DecidableEq, Repr

/-- Python `print(s)`: writes `s` then one newline. -/
def pyPrint (s : String) : String :=
  s ++ "\n"

/-- Python `format` of the f-string interpolation `f"projects/{project}"`:
a `str` formats to itself, `None` formats to `"None"`. -/
def pyFormat : Option String → String
  | none => "None"
  | some s => s

/-- Text printed for one finding (lines 75-79 of the source):
`print(f"Info type: {finding.info_type.name}")`, then, when `include_quote`
holds, `print(f"Quote: {finding.quote}")` (unconditionally on the quote's
content), then `print(f"Likelihood: {finding.likelihood} \n")` — note the
space before the embedded newline in the source's f-string. -/
def presentFinding (include_quote : Bool) (f : Finding) : String :=
  pyPrint ("Info type: " ++ f.info_type.name)
    ++ (if include_quote then pyPrint ("Quote: " ++ f.quote) else "")
    ++ pyPrint ("Likelihood: " ++ f.likelihood ++ " \n")

/-- The `for finding in response.result.findings:` loop. -/
def presentFindings (include_quote : Bool) : List Finding → String
  | [] => ""
  | f :: fs => presentFinding include_quote f ++ presentFindings include_quote fs

/-- Lines 74-81: `if response.result.findings:` iterates the findings, else
prints `No findings.`.  A repeated proto field is truthy iff non-empty. -/
def present (result : InspectResult) (include_quote : Bool) : String :=
  if result.findings.isEmpty then pyPrint "No findings."
  else presentFindings include_quote result.findings

/-- The request value assembled by lines 49-71: the info-type label list is
mapped elementwise into `{"name": label}` entries, `include_quote` is stored
in the config, the file's bytes go into an `IMAGE`-typed `byte_item`, and
`parent` is the f-string `f"projects/{project}"`. -/
def buildRequest (project : Option String) (info_types : List String)
    (include_quote : Bool) (data : List Nat) : InspectRequest :=
  let info_types_entries := info_types.map (fun info_type => InfoTypeEntry.mk info_type)
  let inspect_config := InspectConfig.mk info_types_entries include_quote
  let byte_item := ByteItem.mk "IMAGE" data
  let parent := "projects/" ++ pyFormat project
  InspectRequest.mk parent inspect_config (ContentItem.mk byte_item)

/-- The function `inspect_image_file_listed_infotypes` (lines 27-81),
run against a file system `disk` and a remote client `client`.

`project` and `info_types` are `Option`s because the `__main__` block can
pass `None` for either.  In the source the comprehension
`[{"name": t} for t in info_types]` runs first: iterating `None` raises
`TypeError` before `open(filename)` and before any remote call.  (Mapping
over an actual list never raises, so for a present list the construction is
folded into `buildRequest` after the read.)  A failing `open` raises before
`dlp.inspect_content` is reached, so nothing is sent; an exception from the
client escapes before any printing. -/
def inspect_image_file_listed_infotypes
    (disk : String → Option (List Nat))
    (client : InspectRequest → Except RemoteError InspectResponse)
    (project : Option String) (filename : String)
    (info_types : Option (List String)) (include_quote : Bool) : Trace :=
  match info_types with
  | none => Trace.mk [] "" (Except.error PyError.typeError)
  | some labels =>
    match disk filename with
    | none => Trace.mk [] "" (Except.error PyError.fileReadError)
    | some data =>
      let request := buildRequest project labels include_quote data
      match client request with
      | Except.error e => Trace.mk [request] "" (Except.error (PyError.remoteError e))
      | Except.ok response =>
          Trace.mk [request] (present response.result include_quote) (Except.ok ())

/-- The command line of one invocation, as presence/absence (and value) of
each argument declared by the parser in lines 88-110. -/
structure Argv where
  project : Option String
  filename : Option String
  info_types : Option (List String)
  include_quote : Option String
  deriving DecidableEq, Repr

/-- The namespace produced by `parser.parse_args()`. -/
structure Args where
  project : Option String
  filename : String
  info_types : Option (List String)
  include_quote : Bool
  deriving DecidableEq, Repr

/-- The `include_quote` value the function ends up using: the parser default
is Python `True`; a value supplied on the command line is a string, and the
program only ever uses its truthiness (a non-empty string is truthy). -/
def truthyStr : Option String → Bool
  | none => true
  | some s => !s.isEmpty

/-- `parser.parse_args()` for the declared arguments: the positional
`filename` is required, so its absence is a usage error; `--project` and
`--info_types` carry no `required=True` and default to `None`. -/
def parse_args (argv : Argv) : Except PyError Args :=
  match argv.filename with
  | none => Except.error PyError.usageError
  | some fn => Except.ok (Args.mk argv.project fn argv.info_types (truthyStr argv.include_quote))

/-- The `__main__` block (lines 88-116): parse the command line, then call
`inspect_image_file_listed_infotypes` with the parsed values.  A usage error
aborts before anything is built or sent. -/
def mainRun (disk : String → Option (List Nat))
    (client : InspectRequest → Except RemoteError InspectResponse)
    (argv : Argv) : Trace :=
  match parse_args argv with
  | Except.error e => Trace.mk [] "" (Except.error e)
  | Except.ok args =>
      inspect_image_file_listed_infotypes disk client
        args.project args.filename args.info_types args.include_quote

/-! ### Line decomposition of the printed output

Every `print` in the program terminates what it writes with a newline, so a
run's stdout is a concatenation of newline-terminated lines.  `joinLines`
rebuilds the stdout string from a list of lines; when every line is
newline-free this decomposition is unique (`joinLines_inj`), so properties of
"the lines of the output" are stated against any newline-free line list that
joins to the output. -/

/-- `s` contains no newline character. -/
def noNL (s : String) : Prop := '\n' ∉ s.data

instance : DecidablePred noNL := fun s => by unfold noNL; infer_instance

/-- Concatenation of lines, each terminated by one newline. -/
def joinLines : List String → String
  | [] => ""
  | l :: ls => l ++ "\n" ++ joinLines ls

/-- `l` begins with the text `pre` (compared on the character lists). -/
def lineStarts (pre l : String) : Bool := pre.data.isPrefixOf l.data

/-- The lines printed for one finding: the `Info type:` line, the `Quote:`
line when `include_quote` holds, the `Likelihood:` line (with the source's
trailing space), and the blank line produced by the `\n` inside the
likelihood f-string. -/
def findingLines (include_quote : Bool) (f : Finding) : List String :=
  ["Info type: " ++ f.info_type.name]
    ++ (if include_quote then ["Quote: " ++ f.quote] else [])
    ++ ["Likelihood: " ++ f.likelihood ++ " ", ""]

/-- Canonical line list of `present`. -/
def presentLines (include_quote : Bool) (fs : List Finding) : List String :=
  if fs.isEmpty then ["No findings."]
  else fs.flatMap (findingLines include_quote)

theorem noNL_append (s t : String) : noNL (s ++ t) ↔ noNL s ∧ noNL t := by
  unfold noNL
  rw [String.data_append]
  simp [List.mem_append, not_or]

theorem joinLines_append (xs ys : List String) :
    joinLines (xs ++ ys) = joinLines xs ++ joinLines ys := by
  induction xs with
  | nil => simp [joinLines]
  | cons l xs ih => simp [joinLines, ih, String.append_assoc]

theorem joinLines_findingLines (iq : Bool) (f : Finding) :
    joinLines (findingLines iq f) = presentFinding iq f := by
  cases iq <;>
    simp [joinLines, findingLines, presentFinding, pyPrint, String.append_assoc,
      String.append_empty]

theorem joinLines_flatMap (iq : Bool) (fs : List Finding) :
    joinLines (fs.flatMap (findingLines iq)) = presentFindings iq fs := by
  induction fs with
  | nil => simp [joinLines, presentFindings]
  | cons f fs ih =>
    rw [List.flatMap_cons, joinLines_append, joinLines_findingLines, ih]
    rfl

theorem joinLines_presentLines (iq : Bool) (fs : List Finding) :
    joinLines (presentLines iq fs) = present (InspectResult.mk fs) iq := by
  cases fs with
  | nil => simp [presentLines, present, joinLines, pyPrint]
  | cons f fs =>
    have h1 : presentLines iq (f :: fs) = (f :: fs).flatMap (findingLines iq) := by
      simp [presentLines]
    have h2 : present (InspectResult.mk (f :: fs)) iq = presentFindings iq (f :: fs) := by
      simp [present]
    rw [h1, h2, joinLines_flatMap]

/-- Splitting a character stream at the first newline is unambiguous. -/
theorem line_split_unique :
    ∀ (a b x y : List Char), '\n' ∉ a → '\n' ∉ b →
      a ++ '\n' :: x = b ++ '\n' :: y → a = b ∧ x = y := by
  intro a
  induction a with
  | nil =>
    intro b x y _ hb h
    cases b with
    | nil => simpa using h
    | cons c bs =>
      exfalso
      rw [List.nil_append, List.cons_append] at h
      have hc : c = '\n' := (List.cons.injEq _ _ _ _ ▸ h).1.symm
      exact hb (hc ▸ List.mem_cons_self c bs)
  | cons c as ih =>
    intro b x y ha hb h
    cases b with
    | nil =>
      exfalso
      rw [List.cons_append, List.nil_append] at h
      have hc : c = '\n' := (List.cons.injEq _ _ _ _ ▸ h).1
      exact ha (hc ▸ List.mem_cons_self c as)
    | cons d bs =>
      rw [List.cons_append, List.cons_append] at h
      have h1 := (List.cons.injEq _ _ _ _ ▸ h).1
      have h2 := (List.cons.injEq _ _ _ _ ▸ h).2
      have ha' : '\n' ∉ as := fun m => ha (List.mem_cons_of_mem c m)
      have hb' : '\n' ∉ bs := fun m => hb (List.mem_cons_of_mem d m)
      obtain ⟨e1, e2⟩ := ih bs x y ha' hb' h2
      exact ⟨by rw [h1, e1], e2⟩

/-- The character stream of a joined line list. -/
theorem data_joinLines (ls : List String) :
    (joinLines ls).data = ls.foldr (fun l acc => l.data ++ '\n' :: acc) [] := by
  induction ls with
  | nil => rfl
  | cons l ls ih =>
    show (l ++ "\n" ++ joinLines ls).data = _
    rw [String.data_append, String.data_append, ih]
    simp

/-- A string of newline-terminated, newline-free lines decomposes uniquely. -/
theorem joinLines_inj :
    ∀ (ls₁ ls₂ : List String), (∀ l ∈ ls₁, noNL l) → (∀ l ∈ ls₂, noNL l) →
      joinLines ls₁ = joinLines ls₂ → ls₁ = ls₂ := by
  intro ls₁
  induction ls₁ with
  | nil =>
    intro ls₂ _ _ h
    cases ls₂ with
    | nil => rfl
    | cons l ls =>
      exfalso
      have hd := congrArg String.data h
      rw [data_joinLines, data_joinLines] at hd
      simp at hd
  | cons l₁ t₁ ih =>
    intro ls₂ h₁ h₂ h
    cases ls₂ with
    | nil =>
      exfalso
      have hd := congrArg String.data h
      rw [data_joinLines, data_joinLines] at hd
      simp at hd
    | cons l₂ t₂ =>
      have hd := congrArg String.data h
      rw [data_joinLines, data_joinLines] at hd
      simp only [List.foldr_cons] at hd
      have hn₁ : '\n' ∉ l₁.data := h₁ l₁ (List.mem_cons_self l₁ t₁)
      have hn₂ : '\n' ∉ l₂.data := h₂ l₂ (List.mem_cons_self l₂ t₂)
      obtain ⟨e1, e2⟩ := line_split_unique l₁.data l₂.data _ _ hn₁ hn₂ hd
      have el : l₁ = l₂ := String.ext e1
      have et : t₁ = t₂ := by
        refine ih t₂ (fun l m => h₁ l (List.mem_cons_of_mem l₁ m))
          (fun l m => h₂ l (List.mem_cons_of_mem l₂ m)) ?_
        exact String.ext (by rw [data_joinLines, data_joinLines]; exact e2)
      rw [el, et]

/-- Whether `p` begins a list only depends on the first `p.length` entries. -/
theorem isPrefixOf_append_of_le :
    ∀ (p l r : List Char), p.length ≤ l.length →
      (p.isPrefixOf (l ++ r)) = p.isPrefixOf l := by
  intro p
  induction p with
  | nil => intro l r _; simp [List.isPrefixOf]
  | cons a as ih =>
    intro l r hle
    cases l with
    | nil => simp at hle
    | cons b bs =>
      rw [List.cons_append]
      show (a == b && as.isPrefixOf (bs ++ r)) = (a == b && as.isPrefixOf bs)
      rw [ih bs r (by simpa using hle)]

theorem lineStarts_append (pre lit s : String) (h : pre.data.length ≤ lit.data.length) :
    lineStarts pre (lit ++ s) = lineStarts pre lit := by
  unfold lineStarts
  rw [String.data_append, isPrefixOf_append_of_le _ _ _ h]

theorem starts_info_info (n : String) :
    lineStarts "Info type:" ("Info type: " ++ n) = true := by
  rw [lineStarts_append "Info type:" "Info type: " n (by decide)]; decide

/-- Mismatching heads refute a prefix check at once. -/
theorem isPrefixOf_cons_ne (a b : Char) (as bs : List Char) (h : (a == b) = false) :
    List.isPrefixOf (a :: as) (b :: bs) = false := by
  show (a == b && List.isPrefixOf as bs) = false
  rw [h, Bool.false_and]

theorem starts_info_quote (q : String) :
    lineStarts "Info type:" ("Quote: " ++ q) = false := by
  unfold lineStarts
  rw [String.data_append]
  have h1 : "Info type:".data = 'I' :: "nfo type:".data := rfl
  have h2 : "Quote: ".data = 'Q' :: "uote: ".data := rfl
  rw [h1, h2, List.cons_append]
  exact isPrefixOf_cons_ne _ _ _ _ (by decide)

theorem starts_info_like (s : String) :
    lineStarts "Info type:" ("Likelihood: " ++ s ++ " ") = false := by
  rw [String.append_assoc, lineStarts_append "Info type:" "Likelihood: " _ (by decide)]
  decide

theorem starts_like_like (s : String) :
    lineStarts "Likelihood:" ("Likelihood: " ++ s ++ " ") = true := by
  rw [String.append_assoc, lineStarts_append "Likelihood:" "Likelihood: " _ (by decide)]
  decide

theorem starts_like_info (n : String) :
    lineStarts "Likelihood:" ("Info type: " ++ n) = false := by
  rw [lineStarts_append "Likelihood:" "Info type: " n (by decide)]; decide

theorem starts_like_quote (q : String) :
    lineStarts "Likelihood:" ("Quote: " ++ q) = false := by
  unfold lineStarts
  rw [String.data_append]
  have h1 : "Likelihood:".data = 'L' :: "ikelihood:".data := rfl
  have h2 : "Quote: ".data = 'Q' :: "uote: ".data := rfl
  rw [h1, h2, List.cons_append]
  exact isPrefixOf_cons_ne _ _ _ _ (by decide)

theorem starts_quote_quote (q : String) :
    lineStarts "Quote:" ("Quote: " ++ q) = true := by
  rw [lineStarts_append "Quote:" "Quote: " q (by decide)]; decide

theorem starts_quote_info (n : String) :
    lineStarts "Quote:" ("Info type: " ++ n) = false := by
  rw [lineStarts_append "Quote:" "Info type: " n (by decide)]; decide

theorem starts_quote_like (s : String) :
    lineStarts "Quote:" ("Likelihood: " ++ s ++ " ") = false := by
  rw [String.append_assoc, lineStarts_append "Quote:" "Likelihood: " _ (by decide)]
  decide

theorem filter_flatMap_eq (g : Finding → List String) (p : String → Bool) :
    ∀ fs : List Finding, (fs.flatMap g).filter p = fs.flatMap (fun f => (g f).filter p) := by
  intro fs
  induction fs with
  | nil => rfl
  | cons f fs ih => rw [List.flatMap_cons, List.flatMap_cons, List.filter_append, ih]

theorem flatMap_singleton_map (g : Finding → String) (fs : List Finding) :
    (fs.flatMap fun f => [g f]) = fs.map g := by
  induction fs with
  | nil => rfl
  | cons f fs ih => rw [List.flatMap_cons, List.map_cons, ih]; rfl

theorem findingLines_filter_info (iq : Bool) (f : Finding) :
    (findingLines iq f).filter (fun l => lineStarts "Info type:" l) =
      ["Info type: " ++ f.info_type.name] := by
  cases iq <;>
    simp [findingLines, List.filter_cons, starts_info_info, starts_info_quote,
      starts_info_like, show lineStarts "Info type:" "" = false from by decide]

theorem findingLines_filter_like (iq : Bool) (f : Finding) :
    (findingLines iq f).filter (fun l => lineStarts "Likelihood:" l) =
      ["Likelihood: " ++ f.likelihood ++ " "] := by
  cases iq <;>
    simp [findingLines, List.filter_cons, starts_like_info, starts_like_quote,
      starts_like_like, show lineStarts "Likelihood:" "" = false from by decide]

theorem findingLines_filter_quote_true (f : Finding) :
    (findingLines true f).filter (fun l => lineStarts "Quote:" l) =
      ["Quote: " ++ f.quote] := by
  simp [findingLines, List.filter_cons, starts_quote_info, starts_quote_quote,
    starts_quote_like, show lineStarts "Quote:" "" = false from by decide]

theorem findingLines_filter_quote_false (f : Finding) :
    (findingLines false f).filter (fun l => lineStarts "Quote:" l) = [] := by
  simp [findingLines, List.filter_cons, starts_quote_info,
    starts_quote_like, show lineStarts "Quote:" "" = false from by decide]

theorem noNL_findingLines (iq : Bool) (f : Finding)
    (h1 : noNL f.info_type.name) (h2 : noNL f.quote) (h3 : noNL f.likelihood) :
    ∀ l ∈ findingLines iq f, noNL l := by
  intro l hl
  cases iq <;> simp [findingLines] at hl
  · rcases hl with rfl | rfl | rfl
    · exact (noNL_append _ _).mpr ⟨by decide, h1⟩
    · exact (noNL_append _ _).mpr ⟨(noNL_append _ _).mpr ⟨by decide, h3⟩, by decide⟩
    · decide
  · rcases hl with rfl | rfl | rfl | rfl
    · exact (noNL_append _ _).mpr ⟨by decide, h1⟩
    · exact (noNL_append _ _).mpr ⟨by decide, h2⟩
    · exact (noNL_append _ _).mpr ⟨(noNL_append _ _).mpr ⟨by decide, h3⟩, by decide⟩
    · decide

theorem noNL_presentLines (iq : Bool) (fs : List Finding)
    (h : ∀ f ∈ fs, noNL f.info_type.name ∧ noNL f.quote ∧ noNL f.likelihood) :
    ∀ l ∈ presentLines iq fs, noNL l := by
  intro l hl
  cases fs with
  | nil =>
    simp [presentLines] at hl
    rw [hl]; decide
  | cons f fs =>
    have : presentLines iq (f :: fs) = (f :: fs).flatMap (findingLines iq) := by
      simp [presentLines]
    rw [this] at hl
    obtain ⟨g, hg, hlg⟩ := List.mem_flatMap.mp hl
    obtain ⟨e1, e2, e3⟩ := h g hg
    exact noNL_findingLines iq g e1 e2 e3 l hlg

/-- With the label list present and the file readable, the run reduces to a
case split on the client's answer to the built request. -/
theorem run_reduces
    (disk : String → Option (List Nat))
    (client : InspectRequest → Except RemoteError InspectResponse)
    (p : Option String) (filename : String) (labels : List String)
    (include_quote : Bool) (data : List Nat)
    (hfile : disk filename = some data) :
    inspect_image_file_listed_infotypes disk client p filename
        (some labels) include_quote =
      match client (buildRequest p labels include_quote data) with
      | Except.error e => Trace.mk [buildRequest p labels include_quote data] ""
          (Except.error (PyError.remoteError e))
      | Except.ok response => Trace.mk [buildRequest p labels include_quote data]
          (present response.result include_quote) (Except.ok ()) := by
  unfold inspect_image_file_listed_infotypes
  rw [hfile]

/-! ### The claims -/

/-- C1: whenever the file read succeeds, the single RPC request handed to the
client has `parent = "projects/" ++ project`, `inspect_config.info_types`
equal to the elementwise image of the labels (order and duplicates
preserved), `inspect_config.include_quote` equal to the argument, and an
`IMAGE`-typed byte item holding exactly the file's bytes. -/
theorem C1_request_shape
    (disk : String → Option (List Nat))
    (client : InspectRequest → Except RemoteError InspectResponse)
    (p filename : String) (info_types : List String) (include_quote : Bool)
    (data : List Nat) (hfile : disk filename = some data) :
    ∃ req : InspectRequest,
      (inspect_image_file_listed_infotypes disk client (some p) filename
          (some info_types) include_quote).sent = [req] ∧
      req.parent = "projects/" ++ p ∧
      req.inspect_config.info_types = info_types.map (fun s => InfoTypeEntry.mk s) ∧
      req.inspect_config.include_quote = include_quote ∧
      req.item.byte_item.type_ = "IMAGE" ∧
      req.item.byte_item.data = data := by
  refine ⟨buildRequest (some p) info_types include_quote data, ?_, rfl, rfl, rfl, rfl, rfl⟩
  rw [run_reduces disk client (some p) filename info_types include_quote data hfile]
  cases client (buildRequest (some p) info_types include_quote data) <;> rfl

theorem C1_request_shape_witness :
    (fun _ : String => some [1, 2, 3]) "img.png" = some [1, 2, 3] ∧
    ∃ req : InspectRequest,
      (inspect_image_file_listed_infotypes (fun _ => some [1, 2, 3])
          (fun _ => Except.ok (InspectResponse.mk (InspectResult.mk [])))
          (some "my-proj") "img.png"
          (some ["EMAIL_ADDRESS", "PHONE_NUMBER", "EMAIL_ADDRESS"]) true).sent = [req] ∧
      req.parent = "projects/" ++ "my-proj" ∧
      req.inspect_config.info_types =
        ["EMAIL_ADDRESS", "PHONE_NUMBER", "EMAIL_ADDRESS"].map (fun s => InfoTypeEntry.mk s) ∧
      req.inspect_config.include_quote = true ∧
      req.item.byte_item.type_ = "IMAGE" ∧
      req.item.byte_item.data = [1, 2, 3] :=
  ⟨rfl, C1_request_shape (fun _ => some [1, 2, 3])
    (fun _ => Except.ok (InspectResponse.mk (InspectResult.mk [])))
    "my-proj" "img.png" ["EMAIL_ADDRESS", "PHONE_NUMBER", "EMAIL_ADDRESS"] true
    [1, 2, 3] rfl⟩

/-- C2 is refuted as stated: the likelihood f-string carries a space before
its embedded newline, so the third output line is `Likelihood: LIKELY` with a
trailing space, not `Likelihood: LIKELY`. -/
theorem C2_counterexample :
    present (InspectResult.mk
        [Finding.mk (InfoTypeEntry.mk "EMAIL_ADDRESS") "a@b.com" "LIKELY"]) true ≠
      "Info type: EMAIL_ADDRESS\nQuote: a@b.com\nLikelihood: LIKELY\n\n" := by
  decide

/-- C2 (amended): with the mocked client returning the single finding, the
program's stdout is the lines `Info type: EMAIL_ADDRESS`, `Quote: a@b.com`,
`Likelihood: LIKELY ` (with one trailing space) and one blank line. -/
theorem C2_amended_output :
    (inspect_image_file_listed_infotypes (fun _ => some [0])
        (fun _ => Except.ok (InspectResponse.mk (InspectResult.mk
          [Finding.mk (InfoTypeEntry.mk "EMAIL_ADDRESS") "a@b.com" "LIKELY"])))
        (some "my-proj") "img.png" (some ["EMAIL_ADDRESS"]) true).stdout =
      "Info type: EMAIL_ADDRESS\nQuote: a@b.com\nLikelihood: LIKELY \n\n" := by
  decide

/-- C4: whenever the response's finding sequence is empty, the program's
whole stdout is exactly the single line `No findings.` and it exits
normally. -/
theorem C4_empty_findings
    (disk : String → Option (List Nat))
    (client : InspectRequest → Except RemoteError InspectResponse)
    (p : Option String) (filename : String) (info_types : List String)
    (include_quote : Bool) (data : List Nat) (response : InspectResponse)
    (hfile : disk filename = some data)
    (hclient : client (buildRequest p info_types include_quote data) = Except.ok response)
    (hempty : response.result.findings = []) :
    (inspect_image_file_listed_infotypes disk client p filename
        (some info_types) include_quote).stdout = "No findings.\n" ∧
    (inspect_image_file_listed_infotypes disk client p filename
        (some info_types) include_quote).result = Except.ok () := by
  rw [run_reduces disk client p filename info_types include_quote data hfile, hclient]
  refine ⟨?_, rfl⟩
  show present response.result include_quote = "No findings.\n"
  unfold present
  rw [hempty]
  rfl

theorem C4_empty_findings_witness :
    ((fun _ : String => some [9]) "img.png" = some [9]) ∧
    ((fun _ : InspectRequest => (Except.ok (InspectResponse.mk (InspectResult.mk [])) :
          Except RemoteError InspectResponse))
        (buildRequest (some "my-proj") ["EMAIL_ADDRESS"] true [9]) =
      Except.ok (InspectResponse.mk (InspectResult.mk []))) ∧
    ((InspectResponse.mk (InspectResult.mk [])).result.findings = []) ∧
    ((inspect_image_file_listed_infotypes (fun _ => some [9])
        (fun _ => Except.ok (InspectResponse.mk (InspectResult.mk [])))
        (some "my-proj") "img.png" (some ["EMAIL_ADDRESS"]) true).stdout = "No findings.\n" ∧
      (inspect_image_file_listed_infotypes (fun _ => some [9])
        (fun _ => Except.ok (InspectResponse.mk (InspectResult.mk [])))
        (some "my-proj") "img.png" (some ["EMAIL_ADDRESS"]) true).result = Except.ok ()) :=
  ⟨rfl, rfl, rfl,
    C4_empty_findings (fun _ => some [9])
      (fun _ => Except.ok (InspectResponse.mk (InspectResult.mk [])))
      (some "my-proj") "img.png" ["EMAIL_ADDRESS"] true [9]
      (InspectResponse.mk (InspectResult.mk [])) rfl rfl rfl⟩

/-- C7: when the file cannot be read, the run dies with the file-read error,
no request is ever handed to the client, and nothing is printed. -/
theorem C7_file_error
    (disk : String → Option (List Nat))
    (client : InspectRequest → Except RemoteError InspectResponse)
    (p : Option String) (filename : String) (info_types : List String)
    (include_quote : Bool) (hfile : disk filename = none) :
    inspect_image_file_listed_infotypes disk client p filename
        (some info_types) include_quote =
      Trace.mk [] "" (Except.error PyError.fileReadError) := by
  unfold inspect_image_file_listed_infotypes
  rw [hfile]

theorem C7_file_error_witness :
    ((fun _ : String => (none : Option (List Nat))) "missing.png" = none) ∧
    inspect_image_file_listed_infotypes (fun _ => none)
        (fun _ => Except.ok (InspectResponse.mk (InspectResult.mk [])))
        (some "my-proj") "missing.png" (some ["EMAIL_ADDRESS"]) true =
      Trace.mk [] "" (Except.error PyError.fileReadError) :=
  ⟨rfl, C7_file_error (fun _ => none)
    (fun _ => Except.ok (InspectResponse.mk (InspectResult.mk [])))
    (some "my-proj") "missing.png" ["EMAIL_ADDRESS"] true rfl⟩

/-- C8: when the remote call raises, the run dies with that error wrapped as
a remote-call failure and stdout stays empty — no `Info type:`, `Quote:`,
`Likelihood:` or `No findings.` line is ever written. -/
theorem C8_remote_error
    (disk : String → Option (List Nat))
    (client : InspectRequest → Except RemoteError InspectResponse)
    (p : Option String) (filename : String) (info_types : List String)
    (include_quote : Bool) (data : List Nat) (e : RemoteError)
    (hfile : disk filename = some data)
    (hclient : client (buildRequest p info_types include_quote data) = Except.error e) :
    inspect_image_file_listed_infotypes disk client p filename
        (some info_types) include_quote =
      Trace.mk [buildRequest p info_types include_quote data] ""
        (Except.error (PyError.remoteError e)) := by
  rw [run_reduces disk client p filename info_types include_quote data hfile, hclient]

theorem C8_remote_error_witness :
    ((fun _ : String => some [5]) "img.png" = some [5]) ∧
    ((fun _ : InspectRequest => (Except.error RemoteError.authFailure :
        Except RemoteError InspectResponse))
      (buildRequest (some "my-proj") ["EMAIL_ADDRESS"] true [5]) =
        Except.error RemoteError.authFailure) ∧
    inspect_image_file_listed_infotypes (fun _ => some [5])
        (fun _ => Except.error RemoteError.authFailure)
        (some "my-proj") "img.png" (some ["EMAIL_ADDRESS"]) true =
      Trace.mk [buildRequest (some "my-proj") ["EMAIL_ADDRESS"] true [5]] ""
        (Except.error (PyError.remoteError RemoteError.authFailure)) :=
  ⟨rfl, rfl, C8_remote_error (fun _ => some [5])
    (fun _ => Except.error RemoteError.authFailure)
    (some "my-proj") "img.png" ["EMAIL_ADDRESS"] true [5]
    RemoteError.authFailure rfl rfl⟩

/-- C9 is refuted as stated: the parser only enforces the positional
`filename`.  An invocation with `--project` absent (and one with
`--info_types` present) parses fine, builds the request and reaches the
remote call instead of failing with a usage error. -/
theorem C9_counterexample :
    ((mainRun (fun _ => some [1])
        (fun _ => Except.ok (InspectResponse.mk (InspectResult.mk [])))
        (Argv.mk none (some "img.png") (some ["EMAIL_ADDRESS"]) none)).result ≠
      Except.error PyError.usageError) ∧
    (mainRun (fun _ => some [1])
        (fun _ => Except.ok (InspectResponse.mk (InspectResult.mk [])))
        (Argv.mk none (some "img.png") (some ["EMAIL_ADDRESS"]) none)).sent ≠ [] := by
  decide

/-- C9 (amended): of the three, only the positional filename is enforced by
the argument parser: when it is absent the run dies with a usage error
before anything is built, sent or printed.  Omitting `--project` or
`--info_types` parses successfully with a `None` value. -/
theorem C9_amended_usage
    (disk : String → Option (List Nat))
    (client : InspectRequest → Except RemoteError InspectResponse)
    (argv : Argv) (h : argv.filename = none) :
    mainRun disk client argv = Trace.mk [] "" (Except.error PyError.usageError) := by
  unfold mainRun parse_args
  rw [h]

theorem C9_amended_usage_witness :
    ((Argv.mk (some "my-proj") none (some ["EMAIL_ADDRESS"]) none).filename = none) ∧
    mainRun (fun _ => some [1])
        (fun _ => Except.ok (InspectResponse.mk (InspectResult.mk [])))
        (Argv.mk (some "my-proj") none (some ["EMAIL_ADDRESS"]) none) =
      Trace.mk [] "" (Except.error PyError.usageError) :=
  ⟨rfl, C9_amended_usage (fun _ => some [1])
    (fun _ => Except.ok (InspectResponse.mk (InspectResult.mk [])))
    (Argv.mk (some "my-proj") none (some ["EMAIL_ADDRESS"]) none) rfl⟩

/-- C10: omitting `--info_types` parses successfully (no usage error) with
`info_types = None`; the function then dies with the `TypeError` from
iterating `None`, with no request sent and nothing printed, whatever the
file system and client — so before the file is opened and before any remote
call. -/
theorem C10_missing_info_types
    (disk : String → Option (List Nat))
    (client : InspectRequest → Except RemoteError InspectResponse)
    (p : Option String) (filename : String) (include_quote : Option String) :
    parse_args (Argv.mk p (some filename) none include_quote) =
      Except.ok (Args.mk p filename none (truthyStr include_quote)) ∧
    mainRun disk client (Argv.mk p (some filename) none include_quote) =
      Trace.mk [] "" (Except.error PyError.typeError) :=
  ⟨rfl, rfl⟩

/-- C3: for a non-empty finding sequence (with newline-free field values),
any newline-free line decomposition of the presenter's output has exactly the
findings' `Info type:` lines and exactly their `Likelihood:` lines, each in
the order the findings were received — no sorting, filtering or
aggregation.  The canonical decomposition exists (first conjunct). -/
theorem C3_per_finding_lines (fs : List Finding) (iq : Bool)
    (hne : fs ≠ [])
    (hnl : ∀ f ∈ fs, noNL f.info_type.name ∧ noNL f.quote ∧ noNL f.likelihood) :
    (joinLines (presentLines iq fs) = present (InspectResult.mk fs) iq ∧
      ∀ l ∈ presentLines iq fs, noNL l) ∧
    ∀ ls : List String, (∀ l ∈ ls, noNL l) →
      joinLines ls = present (InspectResult.mk fs) iq →
      (ls.filter (fun l => lineStarts "Info type:" l) =
          fs.map (fun f => "Info type: " ++ f.info_type.name) ∧
        ls.filter (fun l => lineStarts "Likelihood:" l) =
          fs.map (fun f => "Likelihood: " ++ f.likelihood ++ " ")) := by
  have hcanon := joinLines_presentLines iq fs
  have hnoNL := noNL_presentLines iq fs hnl
  refine ⟨⟨hcanon, hnoNL⟩, ?_⟩
  intro ls hls hjoin
  have hls_eq : ls = presentLines iq fs :=
    joinLines_inj ls (presentLines iq fs) hls hnoNL (by rw [hjoin, hcanon])
  subst hls_eq
  have hflat : presentLines iq fs = fs.flatMap (findingLines iq) := by
    cases fs with
    | nil => exact absurd rfl hne
    | cons f fs' => simp [presentLines]
  rw [hflat]
  constructor
  · rw [filter_flatMap_eq]
    have he : (fun f => (findingLines iq f).filter (fun l => lineStarts "Info type:" l)) =
        (fun f : Finding => ["Info type: " ++ f.info_type.name]) := by
      funext f; exact findingLines_filter_info iq f
    rw [he, flatMap_singleton_map]
  · rw [filter_flatMap_eq]
    have he : (fun f => (findingLines iq f).filter (fun l => lineStarts "Likelihood:" l)) =
        (fun f : Finding => ["Likelihood: " ++ f.likelihood ++ " "]) := by
      funext f; exact findingLines_filter_like iq f
    rw [he, flatMap_singleton_map]

theorem C3_per_finding_lines_witness :
    (([Finding.mk (InfoTypeEntry.mk "EMAIL_ADDRESS") "a@b.com" "LIKELY",
        Finding.mk (InfoTypeEntry.mk "PHONE_NUMBER") "555-1212" "POSSIBLE"] :
      List Finding) ≠ []) ∧
    ((presentLines true
        [Finding.mk (InfoTypeEntry.mk "EMAIL_ADDRESS") "a@b.com" "LIKELY",
          Finding.mk (InfoTypeEntry.mk "PHONE_NUMBER") "555-1212" "POSSIBLE"]).filter
        (fun l => lineStarts "Info type:" l) =
      ["Info type: EMAIL_ADDRESS", "Info type: PHONE_NUMBER"] ∧
      (presentLines true
        [Finding.mk (InfoTypeEntry.mk "EMAIL_ADDRESS") "a@b.com" "LIKELY",
          Finding.mk (InfoTypeEntry.mk "PHONE_NUMBER") "555-1212" "POSSIBLE"]).filter
        (fun l => lineStarts "Likelihood:" l) =
      ["Likelihood: LIKELY ", "Likelihood: POSSIBLE "]) :=
  ⟨by decide,
    (C3_per_finding_lines
      [Finding.mk (InfoTypeEntry.mk "EMAIL_ADDRESS") "a@b.com" "LIKELY",
        Finding.mk (InfoTypeEntry.mk "PHONE_NUMBER") "555-1212" "POSSIBLE"] true
      (by decide) (by decide)).2
      (presentLines true
        [Finding.mk (InfoTypeEntry.mk "EMAIL_ADDRESS") "a@b.com" "LIKELY",
          Finding.mk (InfoTypeEntry.mk "PHONE_NUMBER") "555-1212" "POSSIBLE"])
      (by decide) (by decide)⟩

/-- C5 is refuted as stated: with `include_quote` true, a finding that
carries no quote (the empty snippet) still produces a line beginning
`Quote:` — the print is unconditional on the quote's content, so the line is
never omitted. -/
theorem C5_counterexample :
    joinLines ["Info type: PERSON_NAME", "Quote: ", "Likelihood: LIKELY ", ""] =
      present (InspectResult.mk
        [Finding.mk (InfoTypeEntry.mk "PERSON_NAME") "" "LIKELY"]) true ∧
    (∀ l ∈ (["Info type: PERSON_NAME", "Quote: ", "Likelihood: LIKELY ", ""] :
        List String), noNL l) ∧
    (["Info type: PERSON_NAME", "Quote: ", "Likelihood: LIKELY ", ""] :
        List String).filter (fun l => lineStarts "Quote:" l) = ["Quote: "] := by
  exact ⟨by decide, by decide, by decide⟩

/-- C5 (amended): with `include_quote` true the presenter emits exactly one
`Quote: <quote>` line per finding, in order, whether or not the finding
carries a (non-empty) quote. -/
theorem C5_amended_quote_lines (fs : List Finding)
    (hnl : ∀ f ∈ fs, noNL f.info_type.name ∧ noNL f.quote ∧ noNL f.likelihood) :
    ∀ ls : List String, (∀ l ∈ ls, noNL l) →
      joinLines ls = present (InspectResult.mk fs) true →
      ls.filter (fun l => lineStarts "Quote:" l) =
        fs.map (fun f => "Quote: " ++ f.quote) := by
  intro ls hls hjoin
  have hcanon := joinLines_presentLines true fs
  have hnoNL := noNL_presentLines true fs hnl
  have hls_eq : ls = presentLines true fs :=
    joinLines_inj ls (presentLines true fs) hls hnoNL (by rw [hjoin, hcanon])
  subst hls_eq
  cases fs with
  | nil => decide
  | cons f fs' =>
    have hflat : presentLines true (f :: fs') = (f :: fs').flatMap (findingLines true) := by
      simp [presentLines]
    rw [hflat, filter_flatMap_eq]
    have he : (fun g => (findingLines true g).filter (fun l => lineStarts "Quote:" l)) =
        (fun g : Finding => ["Quote: " ++ g.quote]) := by
      funext g; exact findingLines_filter_quote_true g
    rw [he, flatMap_singleton_map]

theorem C5_amended_quote_lines_witness :
    (∀ f ∈ ([Finding.mk (InfoTypeEntry.mk "PERSON_NAME") "" "LIKELY"] : List Finding),
      noNL f.info_type.name ∧ noNL f.quote ∧ noNL f.likelihood) ∧
    (presentLines true [Finding.mk (InfoTypeEntry.mk "PERSON_NAME") "" "LIKELY"]).filter
        (fun l => lineStarts "Quote:" l) = ["Quote: "] :=
  ⟨by decide,
    C5_amended_quote_lines [Finding.mk (InfoTypeEntry.mk "PERSON_NAME") "" "LIKELY"]
      (by decide)
      (presentLines true [Finding.mk (InfoTypeEntry.mk "PERSON_NAME") "" "LIKELY"])
      (by decide) (by decide)⟩

theorem noNL_findingLines_false (f : Finding)
    (h1 : noNL f.info_type.name) (h3 : noNL f.likelihood) :
    ∀ l ∈ findingLines false f, noNL l := by
  intro l hl
  simp [findingLines] at hl
  rcases hl with rfl | rfl | rfl
  · exact (noNL_append _ _).mpr ⟨by decide, h1⟩
  · exact (noNL_append _ _).mpr ⟨(noNL_append _ _).mpr ⟨by decide, h3⟩, by decide⟩
  · decide

theorem noNL_presentLines_false (fs : List Finding)
    (h : ∀ f ∈ fs, noNL f.info_type.name ∧ noNL f.likelihood) :
    ∀ l ∈ presentLines false fs, noNL l := by
  intro l hl
  cases fs with
  | nil =>
    simp [presentLines] at hl
    rw [hl]; decide
  | cons f fs' =>
    have he : presentLines false (f :: fs') = (f :: fs').flatMap (findingLines false) := by
      simp [presentLines]
    rw [he] at hl
    obtain ⟨g, hg, hlg⟩ := List.mem_flatMap.mp hl
    obtain ⟨e1, e3⟩ := h g hg
    exact noNL_findingLines_false g e1 e3 l hlg

theorem flatMap_nil_fun (fs : List Finding) :
    (fs.flatMap fun _ => ([] : List String)) = [] := by
  induction fs with
  | nil => rfl
  | cons f fs ih => rw [List.flatMap_cons, ih]; rfl

/-- C6: when `include_quote` is false, no line of the output begins with
`Quote:` — and the output is literally independent of the findings' quote
fields (replacing every quote by anything leaves it unchanged). -/
theorem C6_no_quote_lines (fs : List Finding)
    (hnl : ∀ f ∈ fs, noNL f.info_type.name ∧ noNL f.likelihood) :
    (∀ ls : List String, (∀ l ∈ ls, noNL l) →
        joinLines ls = present (InspectResult.mk fs) false →
        ls.filter (fun l => lineStarts "Quote:" l) = []) ∧
    (∀ g : Finding → String,
        present (InspectResult.mk
            (fs.map (fun f => Finding.mk f.info_type (g f) f.likelihood))) false =
          present (InspectResult.mk fs) false) := by
  constructor
  · intro ls hls hjoin
    have hcanon := joinLines_presentLines false fs
    have hnoNL := noNL_presentLines_false fs hnl
    have hls_eq : ls = presentLines false fs :=
      joinLines_inj ls (presentLines false fs) hls hnoNL (by rw [hjoin, hcanon])
    subst hls_eq
    cases fs with
    | nil => decide
    | cons f fs' =>
      have hflat : presentLines false (f :: fs') =
          (f :: fs').flatMap (findingLines false) := by
        simp [presentLines]
      rw [hflat, filter_flatMap_eq]
      have he : (fun g => (findingLines false g).filter (fun l => lineStarts "Quote:" l)) =
          (fun _ : Finding => ([] : List String)) := by
        funext g; exact findingLines_filter_quote_false g
      rw [he, flatMap_nil_fun]
  · intro g
    cases fs with
    | nil => rfl
    | cons f fs' =>
      show presentFindings false ((f :: fs').map fun f => Finding.mk f.info_type (g f) f.likelihood) =
        presentFindings false (f :: fs')
      induction (f :: fs') with
      | nil => rfl
      | cons h t ih =>
        rw [List.map_cons]
        show presentFinding false (Finding.mk h.info_type (g h) h.likelihood) ++ _ =
          presentFinding false h ++ _
        rw [ih]
        rfl

theorem C6_no_quote_lines_witness :
    (∀ f ∈ ([Finding.mk (InfoTypeEntry.mk "EMAIL_ADDRESS") "a@b.com" "LIKELY"] :
        List Finding), noNL f.info_type.name ∧ noNL f.likelihood) ∧
    (presentLines false [Finding.mk (InfoTypeEntry.mk "EMAIL_ADDRESS") "a@b.com" "LIKELY"]).filter
        (fun l => lineStarts "Quote:" l) = [] ∧
    present (InspectResult.mk
        ([Finding.mk (InfoTypeEntry.mk "EMAIL_ADDRESS") "a@b.com" "LIKELY"].map
          (fun f => Finding.mk f.info_type ((fun _ => "CHANGED") f) f.likelihood))) false =
      present (InspectResult.mk
        [Finding.mk (InfoTypeEntry.mk "EMAIL_ADDRESS") "a@b.com" "LIKELY"]) false :=
  ⟨by decide,
    (C6_no_quote_lines [Finding.mk (InfoTypeEntry.mk "EMAIL_ADDRESS") "a@b.com" "LIKELY"]
      (by decide)).1
      (presentLines false [Finding.mk (InfoTypeEntry.mk "EMAIL_ADDRESS") "a@b.com" "LIKELY"])
      (by decide) (by decide),
    (C6_no_quote_lines [Finding.mk (InfoTypeEntry.mk "EMAIL_ADDRESS") "a@b.com" "LIKELY"]
      (by decide)).2 (fun _ => "CHANGED")⟩
